import Mathlib

/-
Shallow embedding of the ingredient-quantity scaling logic of
src/Chefbyte-ui/utils.ts: parseIngredientQuantity (lines 16-42),
formatQuantity (lines 44-56) and scaleIngredientText (lines 58-66).

JavaScript numbers are modelled as exact rationals together with the
three non-finite values Infinity, -Infinity and NaN, which the source can
produce from a fraction token with a zero denominator.  IEEE-754 rounding
is abstracted to exact rational arithmetic; every comparison made by the
source has slack far larger than double rounding error at culinary
magnitudes, so the abstraction is faithful on the behaviours specified.
-/

/- Rational arithmetic must evaluate inside decidability checks; the
library seals these operations against definitional unfolding, which the
next command re-enables for the rest of this file. -/
unseal Rat.mul Rat.add Rat.sub Rat.inv

/-- JS number: a finite rational, or Infinity, -Infinity, NaN. -/
inductive JSN where
  | fin (q : ℚ)
  | inf
  | ninf
  | nan
  deriving DecidableEq, Repr

/-- Whitespace class of JS regex `\s` and String.prototype.trim (the ASCII
members; the Unicode members are irrelevant to the strings treated here). -/
def jsWhitespace (c : Char) : Bool :=
  c == ' ' || c == '\t' || c == '\n' || c == '\r' || c == '\x0b' || c == '\x0c'

/-- JS line terminators, which the regex dot `.` does not match. -/
def isLineTerm (c : Char) : Bool :=
  c == '\n' || c == '\r'

/-- String.prototype.trim on the character list of the input. -/
def jsTrim (s : List Char) : List Char :=
  ((s.dropWhile jsWhitespace).reverse.dropWhile jsWhitespace).reverse

/-- Numeric value of a digit run (the regex guarantees only digits occur). -/
def digitsToNat (ds : List Char) : ℕ :=
  ds.foldl (fun a c => 10 * a + (c.toNat - '0'.toNat)) 0

/-- Regex piece `\d+(?:\.\d+)?` (greedy), fused with the `Number` /
`parseFloat` conversion the source applies to the matched text.  Greedy
matching is the only candidate the backtracking engine ever commits to:
shortening a digit run or dropping a consumed decimal part leaves the
next input character a digit or a dot, which can satisfy none of the
regex elements that follow this piece (`\s+`, `-`, `/`). -/
def matchNumber (s : List Char) : Option (ℚ × List Char) :=
  let ds := s.takeWhile Char.isDigit
  let r := s.dropWhile Char.isDigit
  if ds.isEmpty then none
  else
    match r with
    | '.' :: r2 =>
        let fs := r2.takeWhile Char.isDigit
        let r3 := r2.dropWhile Char.isDigit
        if fs.isEmpty then some ((digitsToNat ds : ℚ), r)
        else some ((digitsToNat ds : ℚ) + (digitsToNat fs : ℚ) / (10 : ℚ) ^ fs.length, r3)
    | _ => some ((digitsToNat ds : ℚ), r)

/-- Regex alternative `\d+\/\d+`; yields the two digit-run values, which
the source later divides (utils.ts lines 35-36). -/
def matchFraction (s : List Char) : Option ((ℕ × ℕ) × List Char) :=
  let ds := s.takeWhile Char.isDigit
  let r := s.dropWhile Char.isDigit
  if ds.isEmpty then none
  else
    match r with
    | '/' :: r2 =>
        let es := r2.takeWhile Char.isDigit
        let r3 := r2.dropWhile Char.isDigit
        if es.isEmpty then none else some ((digitsToNat ds, digitsToNat es), r3)
    | _ => none

/-- Regex alternative `\d+(?:\.\d+)?\s*-\s*\d+(?:\.\d+)?`; yields the two
endpoint values (the source splits the matched text on '-' and applies
`Number`, which ignores the whitespace admitted by `\s*`). -/
def matchRange (s : List Char) : Option ((ℚ × ℚ) × List Char) :=
  match matchNumber s with
  | none => none
  | some (a, r) =>
      match r.dropWhile jsWhitespace with
      | '-' :: r2 =>
          match matchNumber (r2.dropWhile jsWhitespace) with
          | none => none
          | some (b, r3) => some ((a, b), r3)
      | _ => none

/-- The regex suffix `\s+(.*)`: requires at least one whitespace character,
consumes the whole whitespace run (greedily; `.*` can always match, so the
engine never gives any of it back), and captures up to the next line
terminator; the regex has no end anchor, so input beyond that is dropped. -/
def afterToken (r : List Char) : Option (List Char) :=
  match r with
  | c :: _ =>
      if jsWhitespace c then
        some ((r.dropWhile jsWhitespace).takeWhile (fun d => !isLineTerm d))
      else none
  | [] => none

/-- The three alternatives of the quantity regex of utils.ts line 19, in
source order. -/
inductive QTok where
  | num (q : ℚ)
  | frac (n d : ℕ)
  | range (a b : ℚ)
  deriving DecidableEq, Repr

/-- One regex alternative followed by the common suffix `\s+(.*)`. -/
def altThenRest {α : Type} (m : Option (α × List Char)) : Option (α × List Char) :=
  match m with
  | some (v, r) =>
      match afterToken r with
      | some rest => some (v, rest)
      | none => none
  | none => none

/-- Full match of `/^(\d+(?:\.\d+)?|\d+\/\d+|\d+(?:\.\d+)?\s*-\s*\d+(?:\.\d+)?)\s+(.*)/`
with JS ordered alternation: an earlier alternative that completes the
whole regex wins; when its token matches but `\s+` fails, every backtrack
inside the alternative resumes at a digit or a dot (see matchNumber), so
the engine moves on to the next alternative at the same start position. -/
def regexMatch (s : List Char) : Option (QTok × List Char) :=
  match altThenRest ((matchNumber s).map fun p => (QTok.num p.1, p.2)) with
  | some x => some x
  | none =>
      match altThenRest ((matchFraction s).map fun p => (QTok.frac p.1.1 p.1.2, p.2)) with
      | some x => some x
      | none => altThenRest ((matchRange s).map fun p => (QTok.range p.1.1 p.1.2, p.2))

/-- JS division `num / den` of utils.ts line 36: a zero denominator gives
Infinity for a positive numerator and NaN for `0/0`. -/
def jsDivNat (n d : ℕ) : JSN :=
  if d = 0 then (if n = 0 then JSN.nan else JSN.inf) else JSN.fin ((n : ℚ) / (d : ℚ))

/-- JS multiplication `value * factor` of utils.ts line 64, for a finite
factor. -/
def jsnMulQ : JSN → ℚ → JSN
  | JSN.fin q, c => JSN.fin (q * c)
  | JSN.inf, c => if 0 < c then JSN.inf else if c < 0 then JSN.ninf else JSN.nan
  | JSN.ninf, c => if 0 < c then JSN.ninf else if c < 0 then JSN.inf else JSN.nan
  | JSN.nan, _ => JSN.nan

/-- Dispatch of utils.ts lines 29-39 on the matched text `numStr`: a token
contains '-' exactly when it came from the range alternative and '/'
exactly when it came from the fraction alternative, so the source's
`includes` tests select precisely the alternative that matched. -/
def tokValue : QTok → JSN
  | QTok.num q => JSN.fin q
  | QTok.frac n d => jsDivNat n d
  | QTok.range a b => JSN.fin ((a + b) / 2)

/-- Result shape of parseIngredientQuantity:
`{ value: number | null, text: string }`. -/
structure ParsedQuantity where
  value : Option JSN
  text : String
  deriving DecidableEq, Repr

/-- parseIngredientQuantity (utils.ts lines 16-42). -/
def parseIngredientQuantity (ingredient : String) : ParsedQuantity :=
  match regexMatch (jsTrim ingredient.data) with
  | none => ⟨none, ingredient⟩
  | some (tok, rest) => ⟨some (tokValue tok), String.mk rest⟩

/-- JS truncation toward zero, used by the `%` operator. -/
def jsTrunc (q : ℚ) : ℤ := if 0 ≤ q then ⌊q⌋ else ⌈q⌉

/-- JS `value % 1` on a finite value (fmod; the result keeps the sign of
the dividend). -/
def jsFmod1 (q : ℚ) : ℚ := q - jsTrunc q

/-- JS Math.round: half-way cases go toward positive infinity. -/
def jsRound (q : ℚ) : ℤ := ⌊q + 1 / 2⌋

/-- JS ToString on an integer-valued number. -/
def intToString (n : ℤ) : String :=
  if n < 0 then "-" ++ toString n.natAbs else toString n.natAbs

/-- JS Number.prototype.toFixed(1) on a finite value: the multiple of 1/10
closest to the value; when two are equally close the larger scaled
integer is taken, which is floor of ten times the value plus one half. -/
def toFixed1 (q : ℚ) : String :=
  let k : ℤ := ⌊10 * q + 1 / 2⌋
  let body := toString (k.natAbs / 10) ++ "." ++ toString (k.natAbs % 10)
  if k < 0 then "-" ++ body else body

/-- The source's `.replace(/\.0$/, '')`: drop a trailing ".0". -/
def stripDotZero (s : String) : String :=
  if s.data.reverse.take 2 = ['0', '.'] then String.mk (s.data.take (s.data.length - 2))
  else s

/-- formatQuantity (utils.ts lines 44-56) on a finite value.  The local
`const decimal = value % 1` of line 49 is inlined as `jsFmod1 value`. -/
def formatQuantityFin (value : ℚ) : String :=
  if |jsFmod1 value| < 1 / 20 then intToString (jsRound value)
  else if |jsFmod1 value - 1 / 2| < 1 / 10 then
    if ⌊value⌋ = 0 then "1/2" else intToString ⌊value⌋ ++ ".5"
  else if |jsFmod1 value - 1 / 4| < 1 / 10 then
    if ⌊value⌋ = 0 then "1/4" else intToString ⌊value⌋ ++ ".25"
  else if |jsFmod1 value - 33 / 100| < 1 / 10 then
    if ⌊value⌋ = 0 then "1/3" else intToString ⌊value⌋ ++ ".33"
  else if |jsFmod1 value - 3 / 4| < 1 / 10 then
    if ⌊value⌋ = 0 then "3/4" else intToString ⌊value⌋ ++ ".75"
  else stripDotZero (toFixed1 value)

/-- formatQuantity on any JS number.  On the non-finite values every
comparison in the source is false (`x % 1` is NaN there and NaN compares
false), so the function falls through to `value.toFixed(1)`, which
renders "Infinity", "-Infinity" or "NaN"; the `/\.0$/` replacement leaves
those unchanged. -/
def formatQuantity : JSN → String
  | JSN.fin q => formatQuantityFin q
  | JSN.inf => "Infinity"
  | JSN.ninf => "-Infinity"
  | JSN.nan => "NaN"

/-- scaleIngredientText (utils.ts lines 58-66). -/
def scaleIngredientText (ingredient : String) (factor : ℚ) : String :=
  if factor = 1 then ingredient
  else
    match parseIngredientQuantity ingredient with
    | ⟨none, _⟩ => ingredient
    | ⟨some v, text⟩ => formatQuantity (jsnMulQ v factor) ++ " " ++ text

/-- Rational value denoted by the string formatQuantityFin produces,
branch by branch: the integer branch denotes the rounded integer; the
1/2, 1/4 and 3/4 branches denote wholePart plus that fraction whether
rendered bare or as decimals; the 0.33 branch denotes 1/3 when rendered
as the bare string "1/3" and wholePart + 33/100 when rendered as ".33"
decimals; the toFixed branch denotes the nearest tenth. -/
def formatFinVal (value : ℚ) : ℚ :=
  if |jsFmod1 value| < 1 / 20 then (jsRound value : ℚ)
  else if |jsFmod1 value - 1 / 2| < 1 / 10 then (⌊value⌋ : ℚ) + 1 / 2
  else if |jsFmod1 value - 1 / 4| < 1 / 10 then (⌊value⌋ : ℚ) + 1 / 4
  else if |jsFmod1 value - 33 / 100| < 1 / 10 then
    (if ⌊value⌋ = 0 then 1 / 3 else (⌊value⌋ : ℚ) + 33 / 100)
  else if |jsFmod1 value - 3 / 4| < 1 / 10 then (⌊value⌋ : ℚ) + 3 / 4
  else (⌊10 * value + 1 / 2⌋ : ℚ) / 10

lemma jsFmod1_of_nonneg (q : ℚ) (h : 0 ≤ q) : jsFmod1 q = q - ⌊q⌋ := by
  unfold jsFmod1 jsTrunc
  rw [if_pos h]

lemma stripDotZero_concat (s : String) : stripDotZero (s ++ ".0") = s := by
  cases s with
  | mk l =>
      have hd : (String.mk l ++ ".0").data = l ++ ['.', '0'] := by
        rw [String.data_append]
      unfold stripDotZero
      rw [hd, if_pos (by rw [List.reverse_append]; rfl)]
      congr 1
      rw [List.length_append]
      simp [List.take_left]

/-- The value denoted by the formatter's output is within 1/10 of its
input: the integer branch moves the value by less than 1/20, each
culinary-fraction branch by less than 1/10 (for the bare "1/3" string the
guards pin the fractional part into an interval within 1/10 of 1/3), and
the toFixed branch by at most 1/20. -/
lemma formatFinVal_close (w : ℚ) (hw : 0 ≤ w) : |formatFinVal w - w| < 1 / 10 := by
  have hfr : jsFmod1 w = w - ⌊w⌋ := jsFmod1_of_nonneg w hw
  have hfl := Int.floor_le w
  have hfu := Int.lt_floor_add_one w
  unfold formatFinVal
  rw [hfr]
  split_ifs with h1 h2 h3 h4 h40 h5
  · -- integer branch
    have h1' : w - ⌊w⌋ < 1 / 20 := (abs_lt.mp h1).2
    have hround : jsRound w = ⌊w⌋ := by
      unfold jsRound
      rw [Int.floor_eq_iff]
      exact ⟨by linarith, by linarith⟩
    rw [hround, abs_lt]
    constructor <;> linarith
  · have h2' := abs_lt.mp h2
    rw [abs_lt]
    constructor <;> linarith
  · have h3' := abs_lt.mp h3
    rw [abs_lt]
    constructor <;> linarith
  · -- 0.33 branch, bare "1/3": guards pin w - ⌊w⌋ into [7/20, 2/5]
    have h4' := abs_lt.mp h4
    rw [not_lt, le_abs] at h2 h3
    have h40' : (⌊w⌋ : ℚ) = 0 := by exact_mod_cast h40
    rw [abs_lt]
    rcases h2 with h2 | h2 <;> rcases h3 with h3 | h3 <;> constructor <;> linarith
  · have h4' := abs_lt.mp h4
    rw [abs_lt]
    constructor <;> linarith
  · have h5' := abs_lt.mp h5
    rw [abs_lt]
    constructor <;> linarith
  · -- toFixed branch
    have l1 := Int.floor_le (10 * w + 1 / 2)
    have l2 := Int.lt_floor_add_one (10 * w + 1 / 2)
    rw [abs_lt]
    constructor <;> linarith

lemma formatFinVal_nonneg (w : ℚ) (hw : 0 ≤ w) : 0 ≤ formatFinVal w := by
  have hfl : (0 : ℤ) ≤ ⌊w⌋ := Int.le_floor.mpr (by exact_mod_cast hw)
  have hfl' : (0 : ℚ) ≤ (⌊w⌋ : ℚ) := by exact_mod_cast hfl
  have hr : (0 : ℤ) ≤ ⌊w + 1 / 2⌋ := Int.le_floor.mpr (by push_cast; linarith)
  have hr2 : (0 : ℤ) ≤ ⌊10 * w + 1 / 2⌋ := Int.le_floor.mpr (by push_cast; linarith)
  have hr' : (0 : ℚ) ≤ (⌊w + 1 / 2⌋ : ℚ) := by exact_mod_cast hr
  have hr2' : (0 : ℚ) ≤ (⌊10 * w + 1 / 2⌋ : ℚ) := by exact_mod_cast hr2
  unfold formatFinVal jsRound
  split_ifs <;> linarith


/-- Claim C1 counterexample: at factor 1 the fast path returns the input
unchanged even when reformatting the parsed quantity would alter it, so
the multiply-and-concatenate description fails for the positive finite
factor 1 at the line "2.0 eggs". -/
theorem c1_scaling_counterexample :
    parseIngredientQuantity "2.0 eggs" = ⟨some (JSN.fin 2), "eggs"⟩ ∧
    scaleIngredientText "2.0 eggs" 1 = "2.0 eggs" ∧
    formatQuantity (jsnMulQ (JSN.fin 2) 1) ++ " " ++ "eggs" = "2 eggs" ∧
    ("2.0 eggs" : String) ≠ "2 eggs" := by
  refine ⟨by decide, by decide, by decide, by decide⟩

/-- Claim C1 (amended): for every positive finite factor other than 1
(the factor-1 fast path returns the input unchanged), scale multiplies
the parsed leading magnitude by the factor and concatenates the formatted
result with a single space before the remainder; a leading range token
parses as the arithmetic mean, and the three quoted examples hold. -/
theorem c1_scaling_amended :
    (∀ (line : String) (f : ℚ) (v : JSN) (t : String), 0 < f → f ≠ 1 →
        parseIngredientQuantity line = ⟨some v, t⟩ →
        scaleIngredientText line f = formatQuantity (jsnMulQ v f) ++ " " ++ t) ∧
    scaleIngredientText "2 eggs" (3 / 2) = "3 eggs" ∧
    scaleIngredientText "1/2 cup flour" 2 = "1 cup flour" ∧
    scaleIngredientText "1-2 onions" 2 = "3 onions" ∧
    (parseIngredientQuantity "1-2 onions").value = some (JSN.fin ((1 + 2) / 2)) := by
  refine ⟨?_, by decide, by decide, by decide, by decide⟩
  intro line f v t hf hne hp
  unfold scaleIngredientText
  rw [if_neg hne, hp]

/-- Claim C1 witness: the amended theorem applied at "2 eggs" and 3/2. -/
theorem c1_scaling_witness :
    (0 : ℚ) < 3 / 2 ∧ (3 / 2 : ℚ) ≠ 1 ∧
    parseIngredientQuantity "2 eggs" = ⟨some (JSN.fin 2), "eggs"⟩ ∧
    scaleIngredientText "2 eggs" (3 / 2) =
      formatQuantity (jsnMulQ (JSN.fin 2) (3 / 2)) ++ " " ++ "eggs" :=
  ⟨by norm_num, by norm_num, by decide,
    c1_scaling_amended.1 "2 eggs" (3 / 2) (JSN.fin 2) "eggs" (by norm_num) (by norm_num)
      (by decide)⟩

/-- Claim C2 counterexample: the source performs no factor validation, so
scale at factor 0 does not fail with InvalidScaleFactor; the invalid
factor is consumed arithmetically and an ordinary string is returned. -/
theorem c2_invalid_factor_counterexample :
    scaleIngredientText "2 eggs" 0 = "0 eggs" := by decide

/-- Claim C2 (amended): scale performs no validation of the factor: a
non-positive factor is applied arithmetically like any other, e.g.
scale("2 eggs", -1) = "-2 eggs"; nothing fails and nothing is clamped. -/
theorem c2_invalid_factor_amended :
    (∀ f : ℚ, f ≤ 0 →
        scaleIngredientText "2 eggs" f = formatQuantity (JSN.fin (2 * f)) ++ " " ++ "eggs") ∧
    scaleIngredientText "2 eggs" (-1) = "-2 eggs" := by
  refine ⟨?_, by decide⟩
  intro f hf
  have hne : f ≠ 1 := by intro hcon; rw [hcon] at hf; norm_num at hf
  unfold scaleIngredientText
  rw [if_neg hne,
    show parseIngredientQuantity "2 eggs" = ⟨some (JSN.fin 2), "eggs"⟩ from by decide]
  rfl

/-- Claim C2 witness: the amended theorem applied at factor 0. -/
theorem c2_invalid_factor_witness :
    (0 : ℚ) ≤ 0 ∧
    scaleIngredientText "2 eggs" 0 = formatQuantity (JSN.fin (2 * 0)) ++ " " ++ "eggs" :=
  ⟨le_refl 0, c2_invalid_factor_amended.1 0 (le_refl 0)⟩

/-- Claim C3 counterexample: a leading fraction with zero denominator is
not treated as unparseable; the JS division yields Infinity, which scale
renders, so the result differs from the original line. -/
theorem c3_zero_denominator_counterexample :
    scaleIngredientText "1/0 cup flour" 2 = "Infinity cup flour" ∧
    ("Infinity cup flour" : String) ≠ "1/0 cup flour" := by
  refine ⟨by decide, by decide⟩

/-- Claim C3 (amended): a zero-denominator fraction parses as a
non-finite JS number (n/0 with positive n gives Infinity, 0/0 gives NaN);
scale does not crash, but instead of passing the line through it renders
the non-finite value for every valid factor other than 1; only the
factor-1 fast path leaves the line unchanged. -/
theorem c3_zero_denominator_amended :
    (∀ f : ℚ, 0 < f → f ≠ 1 →
        scaleIngredientText "1/0 cup flour" f = "Infinity cup flour") ∧
    scaleIngredientText "0/0 oats" 2 = "NaN oats" ∧
    scaleIngredientText "1/0 cup flour" 1 = "1/0 cup flour" := by
  refine ⟨?_, by decide, by decide⟩
  intro f hf hne
  unfold scaleIngredientText
  rw [if_neg hne,
    show parseIngredientQuantity "1/0 cup flour" = ⟨some JSN.inf, "cup flour"⟩ from by decide]
  show formatQuantity (jsnMulQ JSN.inf f) ++ " " ++ "cup flour" = "Infinity cup flour"
  rw [show jsnMulQ JSN.inf f = JSN.inf from by
    show (if 0 < f then JSN.inf else if f < 0 then JSN.ninf else JSN.nan) = JSN.inf
    rw [if_pos hf]]
  decide

/-- Claim C3 witness: the amended theorem applied at factor 2. -/
theorem c3_zero_denominator_witness :
    (0 : ℚ) < 2 ∧ (2 : ℚ) ≠ 1 ∧
    scaleIngredientText "1/0 cup flour" 2 = "Infinity cup flour" :=
  ⟨by norm_num, by norm_num, c3_zero_denominator_amended.1 2 (by norm_num) (by norm_num)⟩

/-- Claim C4 counterexample: the composed round trip errs by 7/100, more
than the claimed 0.05: scaling "1.43 cups" by 1/2 snaps 0.715 to "3/4",
and scaling back by 2 yields "1.5 cups", whose parsed magnitude 3/2 is
not within 1/20 of the original 143/100. -/
theorem c4_roundtrip_counterexample :
    scaleIngredientText "1.43 cups" (1 / 2) = "3/4 cups" ∧
    scaleIngredientText "3/4 cups" (1 / (1 / 2)) = "1.5 cups" ∧
    (parseIngredientQuantity "1.43 cups").value = some (JSN.fin (143 / 100)) ∧
    (parseIngredientQuantity "1.5 cups").value = some (JSN.fin (3 / 2)) ∧
    ¬(|(3 / 2 : ℚ) - 143 / 100| ≤ 1 / 20) := by
  refine ⟨by decide, by decide, by decide, by decide, by decide⟩

/-- Claim C4 (amended): the composition is an approximate round trip, but
its error is bounded by the formatter's per-step loss of 1/10 amplified
by 1/f plus a final formatting loss of 1/10 — not by the 0.05 integer
snapping tolerance.  This is stated on the magnitude denoted by the
formatter's output (formatFinVal); the concrete conjuncts tie that
denotation to the actual strings of the counterexample run. -/
theorem c4_roundtrip_amended :
    (∀ v f : ℚ, 0 ≤ v → 0 < f →
        |formatFinVal (formatFinVal (v * f) * (1 / f)) - v| < 1 / 10 * (1 / f) + 1 / 10) ∧
    formatFinVal (143 / 100 * (1 / 2)) = 3 / 4 ∧
    formatFinVal (3 / 4 * (1 / (1 / 2))) = 3 / 2 ∧
    scaleIngredientText "1.43 cups" (1 / 2) = formatQuantityFin (143 / 100 * (1 / 2)) ++ " " ++ "cups" := by
  refine ⟨?_, by decide, by decide, by decide⟩
  intro v f hv hf
  have hvf : 0 ≤ v * f := mul_nonneg hv hf.le
  have L1 := formatFinVal_close (v * f) hvf
  have N1 := formatFinVal_nonneg (v * f) hvf
  have hinv : (0 : ℚ) < 1 / f := by positivity
  have hx : 0 ≤ formatFinVal (v * f) * (1 / f) := mul_nonneg N1 hinv.le
  have L2 := formatFinVal_close (formatFinVal (v * f) * (1 / f)) hx
  have hne : f ≠ 0 := ne_of_gt hf
  have key : formatFinVal (v * f) * (1 / f) - v = (formatFinVal (v * f) - v * f) * (1 / f) := by
    field_simp
    ring
  have habs : |formatFinVal (v * f) * (1 / f) - v| =
      |formatFinVal (v * f) - v * f| * (1 / f) := by
    rw [key, abs_mul, abs_of_pos hinv]
  have hk : |formatFinVal (v * f) - v * f| * (1 / f) < 1 / 10 * (1 / f) :=
    mul_lt_mul_of_pos_right L1 hinv
  have tri := abs_sub_le (formatFinVal (formatFinVal (v * f) * (1 / f)))
      (formatFinVal (v * f) * (1 / f)) v
  rw [habs] at tri
  linarith

/-- Claim C4 witness: the amended bound applied at the counterexample's
magnitude 143/100 and factor 1/2. -/
theorem c4_roundtrip_witness :
    (0 : ℚ) ≤ 143 / 100 ∧ (0 : ℚ) < 1 / 2 ∧
    |formatFinVal (formatFinVal (143 / 100 * (1 / 2)) * (1 / (1 / 2))) - 143 / 100| <
      1 / 10 * (1 / (1 / 2)) + 1 / 10 :=
  ⟨by norm_num, by norm_num, c4_roundtrip_amended.1 (143 / 100) (1 / 2) (by norm_num) (by norm_num)⟩

/-- Claim C5: for a non-negative value whose fractional part is within
0.1 (strict, as in the source comparisons) of one of the culinary
fractions, the formatter renders the bare fraction string when the whole
part is zero and otherwise the whole part followed by the matched
fraction's decimal digits; and formatQuantity(0.5) = "1/2",
formatQuantity(1.5) = "1.5". -/
theorem c5_fraction_rendering :
    (∀ w : ℚ, 0 ≤ w →
        (|jsFmod1 w - 1 / 4| < 1 / 10 ∨ |jsFmod1 w - 33 / 100| < 1 / 10 ∨
          |jsFmod1 w - 1 / 2| < 1 / 10 ∨ |jsFmod1 w - 3 / 4| < 1 / 10) →
        ∃ c bare dec,
          (c, bare, dec) ∈ ([(1 / 2, "1/2", ".5"), (1 / 4, "1/4", ".25"),
              (33 / 100, "1/3", ".33"), (3 / 4, "3/4", ".75")] : List (ℚ × String × String)) ∧
          |jsFmod1 w - c| < 1 / 10 ∧
          formatQuantity (JSN.fin w) =
            (if ⌊w⌋ = 0 then bare else intToString ⌊w⌋ ++ dec)) ∧
    formatQuantity (JSN.fin (1 / 2)) = "1/2" ∧
    formatQuantity (JSN.fin (3 / 2)) = "1.5" := by
  refine ⟨?_, by decide, by decide⟩
  intro w hw h
  have hfr : jsFmod1 w = w - ⌊w⌋ := jsFmod1_of_nonneg w hw
  have hfl := Int.floor_le w
  have h0 : ¬(|jsFmod1 w| < 1 / 20) := by
    intro hcon
    rw [hfr, abs_of_nonneg (by linarith)] at hcon
    rcases h with h | h | h | h <;> (rw [hfr] at h; have := abs_lt.mp h; linarith)
  by_cases h2 : |jsFmod1 w - 1 / 2| < 1 / 10
  · exact ⟨1 / 2, "1/2", ".5", by decide, h2, by
      show formatQuantityFin w = _
      unfold formatQuantityFin
      rw [if_neg h0, if_pos h2]⟩
  · by_cases h3 : |jsFmod1 w - 1 / 4| < 1 / 10
    · exact ⟨1 / 4, "1/4", ".25", by decide, h3, by
        show formatQuantityFin w = _
        unfold formatQuantityFin
        rw [if_neg h0, if_neg h2, if_pos h3]⟩
    · by_cases h4 : |jsFmod1 w - 33 / 100| < 1 / 10
      · exact ⟨33 / 100, "1/3", ".33", by decide, h4, by
          show formatQuantityFin w = _
          unfold formatQuantityFin
          rw [if_neg h0, if_neg h2, if_neg h3, if_pos h4]⟩
      · by_cases h5 : |jsFmod1 w - 3 / 4| < 1 / 10
        · exact ⟨3 / 4, "3/4", ".75", by decide, h5, by
            show formatQuantityFin w = _
            unfold formatQuantityFin
            rw [if_neg h0, if_neg h2, if_neg h3, if_neg h4, if_pos h5]⟩
        · exfalso
          rcases h with h | h | h | h
          exacts [h3 h, h4 h, h2 h, h5 h]

/-- Claim C5 witness: the theorem applied at 1/2, whose fractional part
matches the culinary fraction 1/2 exactly. -/
theorem c5_fraction_rendering_witness :
    (0 : ℚ) ≤ 1 / 2 ∧
    ∃ c bare dec,
      (c, bare, dec) ∈ ([(1 / 2, "1/2", ".5"), (1 / 4, "1/4", ".25"),
          (33 / 100, "1/3", ".33"), (3 / 4, "3/4", ".75")] : List (ℚ × String × String)) ∧
      |jsFmod1 (1 / 2) - c| < 1 / 10 ∧
      formatQuantity (JSN.fin (1 / 2)) =
        (if ⌊(1 / 2 : ℚ)⌋ = 0 then bare else intToString ⌊(1 / 2 : ℚ)⌋ ++ dec) :=
  ⟨by norm_num, c5_fraction_rendering.1 (1 / 2) (by norm_num) (by decide)⟩

/-- Claim C6: a non-negative value strictly within 0.05 of an integer is
rendered as exactly the decimal string of that (rounded) integer: below
the integer the first branch rounds, above it the toFixed fallback
produces "n.0" and the replace strips the ".0". -/
theorem c6_integer_rendering (w : ℚ) (n : ℤ) (hw : 0 ≤ w) (h : |w - (n : ℚ)| < 1 / 20) :
    formatQuantity (JSN.fin w) = intToString n := by
  have hfr : jsFmod1 w = w - ⌊w⌋ := jsFmod1_of_nonneg w hw
  have hfl := Int.floor_le w
  have hfu := Int.lt_floor_add_one w
  have h' := abs_lt.mp h
  show formatQuantityFin w = intToString n
  rcases lt_or_le (w - ⌊w⌋) (1 / 20) with hc | hc
  · -- the value sits just above its floor: integer branch, n = ⌊w⌋
    have hn : n = ⌊w⌋ := by
      have h1 : (n : ℚ) < (⌊w⌋ : ℚ) + 1 := by linarith
      have h2 : (⌊w⌋ : ℚ) - 1 < (n : ℚ) := by linarith
      have h1' : n < ⌊w⌋ + 1 := by exact_mod_cast h1
      have h2' : ⌊w⌋ - 1 < n := by exact_mod_cast h2
      omega
    have hround : jsRound w = ⌊w⌋ := by
      unfold jsRound
      rw [Int.floor_eq_iff]
      exact ⟨by linarith, by linarith⟩
    unfold formatQuantityFin
    rw [hfr, if_pos (by rw [abs_of_nonneg (by linarith)]; exact hc), hround, hn]
  · -- the value sits just below its ceiling: toFixed branch, n = ⌊w⌋ + 1
    have hn1 : ⌊w⌋ + 1 ≤ n := by
      by_contra hcon
      push_neg at hcon
      have hle : n ≤ ⌊w⌋ := by omega
      have : (n : ℚ) ≤ (⌊w⌋ : ℚ) := by exact_mod_cast hle
      linarith
    have hn1' : (⌊w⌋ : ℚ) + 1 ≤ (n : ℚ) := by exact_mod_cast hn1
    have hfrac : 19 / 20 < w - ⌊w⌋ := by linarith
    have hn2 : n ≤ ⌊w⌋ + 1 := by
      have : (n : ℚ) < (⌊w⌋ : ℚ) + 2 := by linarith
      have : n < ⌊w⌋ + 2 := by exact_mod_cast this
      omega
    have hn : n = ⌊w⌋ + 1 := le_antisymm hn2 hn1
    have hnq : (n : ℚ) = (⌊w⌋ : ℚ) + 1 := by rw [hn]; push_cast; ring
    have hg1 : ¬(|w - ⌊w⌋| < 1 / 20) := fun hcon => by
      have := abs_lt.mp hcon; linarith
    have hg2 : ¬(|w - ⌊w⌋ - 1 / 2| < 1 / 10) := fun hcon => by
      have := abs_lt.mp hcon; linarith
    have hg3 : ¬(|w - ⌊w⌋ - 1 / 4| < 1 / 10) := fun hcon => by
      have := abs_lt.mp hcon; linarith
    have hg4 : ¬(|w - ⌊w⌋ - 33 / 100| < 1 / 10) := fun hcon => by
      have := abs_lt.mp hcon; linarith
    have hg5 : ¬(|w - ⌊w⌋ - 3 / 4| < 1 / 10) := fun hcon => by
      have := abs_lt.mp hcon; linarith
    unfold formatQuantityFin
    rw [hfr, if_neg hg1, if_neg hg2, if_neg hg3, if_neg hg4, if_neg hg5]
    have hkey : ⌊10 * w + 1 / 2⌋ = 10 * n := by
      rw [Int.floor_eq_iff]
      constructor
      · push_cast
        linarith
      · push_cast
        linarith
    have hn0 : 1 ≤ n := by
      have : (0 : ℤ) ≤ ⌊w⌋ := Int.le_floor.mpr (by exact_mod_cast hw)
      omega
    unfold toFixed1
    rw [hkey]
    have hnneg : ¬(10 * n < 0) := by omega
    rw [if_neg hnneg]
    have habs10 : (10 * n).natAbs = 10 * n.natAbs := by
      rw [Int.natAbs_mul]
      rfl
    rw [habs10, Nat.mul_div_cancel_left _ (by norm_num), Nat.mul_mod_right]
    have hz : toString (0 : ℕ) = "0" := rfl
    rw [hz]
    have hcat : toString n.natAbs ++ "." ++ "0" = toString n.natAbs ++ ".0" := by
      rw [String.append_assoc]
      rfl
    rw [hcat, stripDotZero_concat]
    unfold intToString
    rw [if_neg (by omega)]

/-- Claim C6 witness: the theorem applied at the claimed examples 2 and 3. -/
theorem c6_integer_rendering_witness :
    (0 : ℚ) ≤ 2 ∧ |(2 : ℚ) - ((2 : ℤ) : ℚ)| < 1 / 20 ∧
    formatQuantity (JSN.fin 2) = "2" ∧ formatQuantity (JSN.fin 3) = "3" :=
  ⟨by norm_num, by norm_num,
    (c6_integer_rendering 2 2 (by norm_num) (by norm_num)).trans (by decide),
    (c6_integer_rendering 3 3 (by norm_num) (by norm_num)).trans (by decide)⟩

/-- Claim C7: when no leading numeric token is found the parser returns
no magnitude with the remainder equal to the whole untrimmed input, and
scale returns the line unchanged for every factor; "salt to taste" has no
quantity, and a line starting with a negative number has no quantity. -/
theorem c7_no_quantity_passthrough :
    (∀ (line : String) (f : ℚ), (parseIngredientQuantity line).value = none →
        (parseIngredientQuantity line).text = line ∧ scaleIngredientText line f = line) ∧
    parseIngredientQuantity "salt to taste" = ⟨none, "salt to taste"⟩ ∧
    (parseIngredientQuantity "-2 eggs").value = none := by
  refine ⟨?_, by decide, by decide⟩
  intro line f hv
  have hp : parseIngredientQuantity line = ⟨none, line⟩ := by
    unfold parseIngredientQuantity at hv ⊢
    cases hm : regexMatch (jsTrim line.data) with
    | none => rfl
    | some p =>
        obtain ⟨tok, rest⟩ := p
        rw [hm] at hv
        simp at hv
  refine ⟨by rw [hp], ?_⟩
  unfold scaleIngredientText
  split_ifs with h1
  · rfl
  · rw [hp]

/-- Claim C7 witness: the theorem applied at "salt to taste", factor 2. -/
theorem c7_no_quantity_passthrough_witness :
    (parseIngredientQuantity "salt to taste").value = none ∧
    (parseIngredientQuantity "salt to taste").text = "salt to taste" ∧
    scaleIngredientText "salt to taste" 2 = "salt to taste" :=
  ⟨by decide, c7_no_quantity_passthrough.1 "salt to taste" 2 (by decide)⟩

/-- Claim C8: scaling by factor 1 returns the input line unchanged, byte
for byte, for every line. -/
theorem c8_identity_factor_one (line : String) : scaleIngredientText line 1 = line := by
  unfold scaleIngredientText
  rw [if_pos rfl]

/-- Claim C9: scale is total with exactly two output shapes: the original
line unchanged, or the formatted scaled quantity, one space, and the
parsed remainder.  The embedding is a total function, mirroring that the
source cannot throw: every code path returns one of these two strings. -/
theorem c9_total_shape (line : String) (f : ℚ) :
    scaleIngredientText line f = line ∨
      ∃ v t, parseIngredientQuantity line = ⟨some v, t⟩ ∧
        scaleIngredientText line f = formatQuantity (jsnMulQ v f) ++ " " ++ t := by
  unfold scaleIngredientText
  split_ifs with h1
  · exact Or.inl rfl
  · cases hp : parseIngredientQuantity line with
    | mk val txt =>
        cases val with
        | none => exact Or.inl rfl
        | some v => exact Or.inr ⟨v, txt, rfl, rfl⟩

/-- Claim C10: the formatter tests the culinary fractions in the fixed
source order 0.5, 0.25, 0.33, 0.75 and renders the first match; 0.42
renders as "1/2" although it is also within 0.1 of 0.33, and the parsed
magnitude of "1/3" (exactly 1/3) renders as "1/4" because 0.25 is tested
before 0.33. -/
theorem c10_fraction_priority :
    (∀ w : ℚ, 0 ≤ w → ¬(|jsFmod1 w| < 1 / 20) →
        ((|jsFmod1 w - 1 / 2| < 1 / 10 →
            formatQuantity (JSN.fin w) =
              if ⌊w⌋ = 0 then "1/2" else intToString ⌊w⌋ ++ ".5") ∧
          (¬(|jsFmod1 w - 1 / 2| < 1 / 10) → |jsFmod1 w - 1 / 4| < 1 / 10 →
            formatQuantity (JSN.fin w) =
              if ⌊w⌋ = 0 then "1/4" else intToString ⌊w⌋ ++ ".25") ∧
          (¬(|jsFmod1 w - 1 / 2| < 1 / 10) → ¬(|jsFmod1 w - 1 / 4| < 1 / 10) →
              |jsFmod1 w - 33 / 100| < 1 / 10 →
            formatQuantity (JSN.fin w) =
              if ⌊w⌋ = 0 then "1/3" else intToString ⌊w⌋ ++ ".33") ∧
          (¬(|jsFmod1 w - 1 / 2| < 1 / 10) → ¬(|jsFmod1 w - 1 / 4| < 1 / 10) →
              ¬(|jsFmod1 w - 33 / 100| < 1 / 10) → |jsFmod1 w - 3 / 4| < 1 / 10 →
            formatQuantity (JSN.fin w) =
              if ⌊w⌋ = 0 then "3/4" else intToString ⌊w⌋ ++ ".75")) ) ∧
    formatQuantity (JSN.fin (42 / 100)) = "1/2" ∧
    (parseIngredientQuantity "1/3 cup").value = some (JSN.fin (1 / 3)) ∧
    formatQuantity (JSN.fin (1 / 3)) = "1/4" := by
  refine ⟨?_, by decide, by decide, by decide⟩
  intro w hw h0
  refine ⟨fun h2 => ?_, fun h2 h3 => ?_, fun h2 h3 h4 => ?_, fun h2 h3 h4 h5 => ?_⟩
  · show formatQuantityFin w = _
    unfold formatQuantityFin
    rw [if_neg h0, if_pos h2]
  · show formatQuantityFin w = _
    unfold formatQuantityFin
    rw [if_neg h0, if_neg h2, if_pos h3]
  · show formatQuantityFin w = _
    unfold formatQuantityFin
    rw [if_neg h0, if_neg h2, if_neg h3, if_pos h4]
  · show formatQuantityFin w = _
    unfold formatQuantityFin
    rw [if_neg h0, if_neg h2, if_neg h3, if_neg h4, if_pos h5]

/-- Claim C10 witness: the priority theorem applied at 0.42, where both
the 0.5 and the 0.33 guards hold and 0.5 wins. -/
theorem c10_fraction_priority_witness :
    ¬(|jsFmod1 (42 / 100)| < 1 / 20) ∧ |jsFmod1 (42 / 100) - 1 / 2| < 1 / 10 ∧
    |jsFmod1 (42 / 100) - 33 / 100| < 1 / 10 ∧
    formatQuantity (JSN.fin (42 / 100)) =
      (if ⌊(42 / 100 : ℚ)⌋ = 0 then "1/2" else intToString ⌊(42 / 100 : ℚ)⌋ ++ ".5") :=
  ⟨by decide, by decide, by decide,
    (c10_fraction_priority.1 (42 / 100) (by norm_num) (by decide)).1 (by decide)⟩
